import Mathlib

/-!
# ChannelMonitor: a shallow embedding of `main.go`

The development embeds the probing and reconciliation engine of `main.go`:
`fetchChannels`, `contains`, `containsString`, `testModels`, `updateModels`
and the scheduler loop of `main`.

Conventions of the embedding.

* Go strings are Lean `String`s; `strings.HasSuffix` and `strings.Contains`
  are computed on the character lists.
* A Go `map[string]string` is the list of its entries in the order in which
  `range` visits them (an arbitrary order, fixed for one loop); the keys of a
  map are pairwise distinct.
* Everything the program obtains from outside (SQL rows, HTTP answers, JSON
  decoding, the order in which goroutines reach their critical section,
  statement failures inside a transaction) is an explicit argument.
-/

namespace ChannelMonitor

/-! ## Strings -/

/-- Go `strings.HasSuffix`. -/
def hasSuffix (s suffix : String) : Bool :=
  suffix.data.isSuffixOf s.data

/-- Search of a substring in a list of characters, position by position. -/
def containsChars : List Char → List Char → Bool
  | [], sub => sub.isEmpty
  | c :: cs, sub => sub.isPrefixOf (c :: cs) || containsChars cs sub

/-- Go `strings.Contains`. -/
def stringsContains (s substr : String) : Bool :=
  containsChars s.data substr.data

/-- Go `strings.Join`. -/
def stringsJoin (elems : List String) (sep : String) : String :=
  sep.intercalate elems

/-! ## Maps -/

/-- A Go `map[string]string`: its entries, in `range` order. -/
abbrev GoMap := List (String × String)

/-- Map read `m[k]` with the comma-ok form: `none` when the key is absent. -/
def GoMap.get (m : GoMap) (k : String) : Option String :=
  match m with
  | [] => none
  | (k', v) :: rest => if k' = k then some v else GoMap.get rest k

/-- Map write `m[k] = v`: an existing entry for `k` is overwritten. -/
def GoMap.set (m : GoMap) (k v : String) : GoMap :=
  match m with
  | [] => [(k, v)]
  | (k', v') :: rest => if k' = k then (k, v) :: rest else (k', v') :: GoMap.set rest k v

/-! ## Data model -/

/-- The `Channel` struct of `main.go` (its field `Type` is spelled `Typ`). -/
structure Channel where
  ID : Int
  Typ : Int
  Name : String
  BaseURL : String
  Key : String
  Status : Int
  ModelMapping : GoMap
  deriving DecidableEq, Repr

/-- Modelled from the spec: the `Config` type is declared outside `main.go`;
these are the fields that `main.go` reads (section 6, configuration surface). -/
structure Config where
  ExcludeChannel : List Int
  ExcludeModel : List String
  Models : List String
  ForceModels : Bool
  OneAPIType : String
  BaseURL : String
  SystemToken : String
  deriving Repr

/-! ## `contains`, `containsString` -/

/-- The function `contains` of `main.go`: linear search in a slice of ints. -/
def contains : List Int → Int → Bool
  | [], _ => false
  | v :: rest, item => if v = item then true else contains rest item

/-- The function `containsString` of `main.go`: linear search in a slice of strings. -/
def containsString : List String → String → Bool
  | [], _ => false
  | v :: rest, item => if v = item then true else containsString rest item

/-! ## `fetchChannels` -/

/-- The columns one row of the query hands to `rows.Scan`. -/
structure Row where
  id : Int
  type : Int
  name : String
  base_url : String
  key : String
  status : Int
  model_mapping : String
  deriving DecidableEq, Repr

/-- The `switch c.Type` of `fetchChannels`: base URL defaults per channel type. -/
def defaultBaseURL (type : Int) (baseURL : String) : String :=
  if type = 40 then "https://api.siliconflow.cn"
  else if type = 999 then "https://api.siliconflow.cn"
  else if type = 1 then (if baseURL = "" then "https://api.openai.com" else baseURL)
  else baseURL

/-- The body of the row loop up to the exclusion test: the mapping column is
decoded by `unmarshal` (the JSON decoder, `none` on a decoding error) unless it
is empty, then the base URL default is applied. -/
def decodeRow (unmarshal : String → Option GoMap) (r : Row) : Option Channel :=
  let mk (m : GoMap) : Channel :=
    { ID := r.id, Typ := r.type, Name := r.name,
      BaseURL := defaultBaseURL r.type r.base_url,
      Key := r.key, Status := r.status, ModelMapping := m }
  if r.model_mapping = "" then some (mk [])
  else match unmarshal r.model_mapping with
    | none => none
    | some m => some (mk m)

/-- The row loop of `fetchChannels`. A row is `none` when `rows.Scan` fails on
it. The loop stops with an error at the first row that does not scan or
decode; an excluded row is skipped, any other is appended. -/
def fetchLoop (cfg : Config) (unmarshal : String → Option GoMap) :
    List (Option Row) → List Channel → Option (List Channel)
  | [], channels => some channels
  | none :: _, _ => none
  | some r :: rest, channels =>
    match decodeRow unmarshal r with
    | none => none
    | some c =>
      if contains cfg.ExcludeChannel c.ID then fetchLoop cfg unmarshal rest channels
      else fetchLoop cfg unmarshal rest (channels ++ [c])

/-- The function `fetchChannels`: `query` is the answer of the store, `none`
when the query itself fails; the result is `none` when an error is returned. -/
def fetchChannels (cfg : Config) (unmarshal : String → Option GoMap)
    (query : Option (List (Option Row))) : Option (List Channel) :=
  match query with
  | none => none
  | some rows => fetchLoop cfg unmarshal rows []

/-! ## Probe URL -/

/-- The URL built at the start of each probe goroutine of `testModels`. -/
def probeURL (baseURL : String) : String :=
  if !stringsContains baseURL "/v1/chat/completions" then
    if !hasSuffix baseURL "/chat" then
      if !hasSuffix baseURL "/v1" then
        ((baseURL ++ "/v1") ++ "/chat") ++ "/completions"
      else
        (baseURL ++ "/chat") ++ "/completions"
    else
      baseURL ++ "/completions"
  else
    baseURL

/-! ## Alias rewrite of `updateModels` -/

/-- The first loop of `updateModels`: `invertedMapping[v] = k` for each entry
`(k, v)` of the mapping, in `range` order, starting from `acc`. -/
def invertLoop : GoMap → GoMap → GoMap
  | [], acc => acc
  | (k, v) :: rest, acc => invertLoop rest (acc.set v k)

/-- The inverted mapping built by `updateModels`. -/
def invertMapping (modelMapping : GoMap) : GoMap :=
  invertLoop modelMapping []

/-- The second loop of `updateModels`: each model found in the inverted
mapping is overwritten in place by the value stored there. -/
def rewriteModels (modelMapping : GoMap) (models : List String) : List String :=
  models.map (fun model =>
    match (invertMapping modelMapping).get model with
    | some v => v
    | none => model)

/-! ## HTTP exchanges -/

/-- What one HTTP exchange of the program yields: `http.NewRequest` fails,
`client.Do` fails (transport error or timeout), or a response arrives. -/
inductive HttpResult where
  | requestError
  | transportError
  | response (status : Int) (body : String)
  deriving DecidableEq, Repr

/-! ## The relational store -/

/-- A row of the table `channels`. -/
structure ChannelRow where
  id : Int
  type : Int
  name : String
  base_url : String
  key : String
  status : Int
  model_mapping : String
  models : String
  deriving DecidableEq, Repr

/-- A row of the table `abilities` (the columns the statements mention). -/
structure AbilityRow where
  channel_id : Int
  model : String
  enabled : Int
  deriving DecidableEq, Repr

/-- The two tables the statements of `updateModels` touch. -/
structure DB where
  channels : List ChannelRow
  abilities : List AbilityRow
  deriving DecidableEq, Repr

/-- The database as the program sees it: the committed tables and, while a
transaction is open, the tables as the transaction sees them. -/
structure Store where
  committed : DB
  tx : Option DB
  deriving DecidableEq, Repr

/-- `db.Begin()`: the transaction starts from the committed tables. -/
def Store.begin (s : Store) : Store :=
  { s with tx := some s.committed }

/-- `tx.Exec` of a statement that succeeds: applied inside the transaction. -/
def Store.exec (s : Store) (stmt : DB → DB) : Store :=
  { s with tx := s.tx.map stmt }

/-- `tx.Rollback()`: the transaction is dropped with all it did. -/
def Store.rollback (s : Store) : Store :=
  { s with tx := none }

/-- `tx.Commit()` that succeeds: the view of the transaction becomes the
committed tables. -/
def Store.commit (s : Store) : Store :=
  match s.tx with
  | some d => { committed := d, tx := none }
  | none => s

/-- `UPDATE channels SET models = ? WHERE id = ?`. -/
def stmtUpdateModels (modelsStr : String) (channelID : Int) (d : DB) : DB :=
  { d with channels := d.channels.map (fun r =>
      if r.id = channelID then { r with models := modelsStr } else r) }

/-- `DELETE FROM channels WHERE name = 'refresh'` (names compared exactly). -/
def stmtDeleteRefresh (d : DB) : DB :=
  { d with channels := d.channels.filter (fun r => !decide (r.name = "refresh")) }

/-- SQL `model IN (?)` with the slice bound to the placeholder; an empty slice
is bound as `(NULL)`, a list in which nothing is found. -/
def sqlIn (model : String) (models : List String) : Bool :=
  containsString models model

/-- SQL `model NOT IN (?)`; against the `(NULL)` of an empty slice the test
does not hold either. -/
def sqlNotIn (model : String) (models : List String) : Bool :=
  !models.isEmpty && !containsString models model

/-- `DELETE FROM abilities WHERE channel_id = ? AND model NOT IN (?)`. -/
def stmtDeleteAbilities (channelID : Int) (models : List String) (d : DB) : DB :=
  { d with abilities := d.abilities.filter (fun a =>
      !(decide (a.channel_id = channelID) && sqlNotIn a.model models)) }

/-- `UPDATE abilities SET enabled = 1 WHERE channel_id = ? AND model IN (?)`. -/
def stmtEnableAbilities (channelID : Int) (models : List String) (d : DB) : DB :=
  { d with abilities := d.abilities.map (fun a =>
      if decide (a.channel_id = channelID) && sqlIn a.model models
      then { a with enabled := 1 } else a) }

/-- The database operations of `updateModels`, in program order. -/
inductive Step where
  | begin
  | updateModels
  | deleteRefresh
  | deleteAbilities
  | enableAbilities
  | commit
  deriving DecidableEq, Repr

/-- The channel object of the management API: the field `Models` and, in
`others`, all remaining fields of `response.Data`. -/
structure ChannelDetail where
  Models : String
  others : String
  deriving DecidableEq, Repr

/-- The errors `updateModels` returns: the error of a database operation, or
one of the `fmt.Errorf` values of the management-API branch. -/
inductive UpdateError where
  | database (step : Step) (msg : String)
  | createRequest
  | getDetail
  | getDetailStatus (status : Int)
  | decodeDetail
  | putChannel
  | putChannelStatus (status : Int)
  deriving DecidableEq, Repr

/-- What the outside world answers to one call of `updateModels`: for each
database operation the error it fails with (`none`: it succeeds), the answer
to the GET of the channel detail, its JSON decoding, the answer to the PUT. -/
structure UpdateEnv where
  fail : Step → Option String
  detailGet : HttpResult
  decodeDetail : String → Option ChannelDetail
  channelPut : HttpResult

/-- What one call of `updateModels` leaves behind: the returned error (`none`
for `nil`), the store, and the object sent by PUT when one is sent. -/
structure UpdateResult where
  err : Option UpdateError
  store : Store
  put : Option ChannelDetail
  deriving DecidableEq, Repr

/-- The branch of `updateModels` taken when `config.OneAPIType != "onehub"`:
one transaction with four statements; `models` is the rewritten slice. -/
def updateRelational (env : UpdateEnv) (store : Store) (channelID : Int)
    (models : List String) : UpdateResult :=
  match env.fail Step.begin with
  | some e => { err := some (.database .begin e), store := store, put := none }
  | none =>
  let tx0 := store.begin
  let modelsStr := stringsJoin models ","
  match env.fail Step.updateModels with
  | some e => { err := some (.database .updateModels e), store := tx0.rollback, put := none }
  | none =>
  let tx1 := tx0.exec (stmtUpdateModels modelsStr channelID)
  match env.fail Step.deleteRefresh with
  | some e => { err := some (.database .deleteRefresh e), store := tx1.rollback, put := none }
  | none =>
  let tx2 := tx1.exec stmtDeleteRefresh
  match env.fail Step.deleteAbilities with
  | some e => { err := some (.database .deleteAbilities e), store := tx2.rollback, put := none }
  | none =>
  let tx3 := tx2.exec (stmtDeleteAbilities channelID models)
  match env.fail Step.enableAbilities with
  | some e => { err := some (.database .enableAbilities e), store := tx3.rollback, put := none }
  | none =>
  let tx4 := tx3.exec (stmtEnableAbilities channelID models)
  match env.fail Step.commit with
  | some e => { err := some (.database .commit e), store := tx4.rollback, put := none }
  | none => { err := none, store := tx4.commit, put := none }

/-- The branch of `updateModels` taken for `"onehub"`: GET the channel detail,
overwrite its `Models`, PUT it back. The store is not touched. -/
def updateRemote (env : UpdateEnv) (store : Store) (models : List String) : UpdateResult :=
  match env.detailGet with
  | .requestError => { err := some .createRequest, store := store, put := none }
  | .transportError => { err := some .getDetail, store := store, put := none }
  | .response status body =>
    if status ≠ 200 then { err := some (.getDetailStatus status), store := store, put := none }
    else match env.decodeDetail body with
      | none => { err := some .decodeDetail, store := store, put := none }
      | some data =>
        let data := { data with Models := stringsJoin models "," }
        match env.channelPut with
        | .requestError => { err := some .createRequest, store := store, put := none }
        | .transportError => { err := some .putChannel, store := store, put := some data }
        | .response status _ =>
          if status ≠ 200 then
            { err := some (.putChannelStatus status), store := store, put := some data }
          else { err := none, store := store, put := some data }

/-- The function `updateModels`: alias rewrite, then the write to the backend
selected by `config.OneAPIType`. -/
def updateModels (cfg : Config) (env : UpdateEnv) (store : Store) (channelID : Int)
    (models : List String) (modelMapping : GoMap) : UpdateResult :=
  let models := rewriteModels modelMapping models
  if cfg.OneAPIType ≠ "onehub" then updateRelational env store channelID models
  else updateRemote env store models

/-! ## `testModels` -/

/-- The loop of `testModels` over `response.Data`: the ids not in
`config.ExcludeModel` are appended to `modelList`. -/
def collectModels (cfg : Config) : List String → List String → List String
  | [], modelList => modelList
  | id :: rest, modelList =>
    if containsString cfg.ExcludeModel id then collectModels cfg rest modelList
    else collectModels cfg rest (modelList ++ [id])

/-- The first part of `testModels` (up to the probes): the candidate model
list, or `none` when `testModels` returns there. `decode` is the JSON decoding
of the body into the list of `id`s of `data`, `none` on a decoding error. -/
def discoverModels (cfg : Config) (decode : String → Option (List String))
    (get : HttpResult) : Option (List String) :=
  if cfg.ForceModels then some cfg.Models
  else match get with
    | .requestError => none
    | .transportError => some cfg.Models
    | .response status body =>
      if status ≠ 200 then none
      else match decode body with
        | none => none
        | some ids => some (collectModels cfg ids [])

/-- The test a probe goroutine makes on its exchange: it appends its model
only on a response with `resp.StatusCode == http.StatusOK`. -/
def probeAvailable : HttpResult → Bool
  | .response status _ => decide (status = 200)
  | _ => false

/-- The appends to `availableModels`. The goroutine of index `i` probes
`modelList[i]`; `probe i` is what its exchange yields; `order` lists the
goroutines in the order in which they pass the section guarded by `modelMu`. -/
def aggregate (modelList : List String) (probe : Nat → HttpResult) :
    List Nat → List String → List String
  | [], availableModels => availableModels
  | i :: rest, availableModels =>
    match modelList[i]? with
    | none => aggregate modelList probe rest availableModels
    | some model =>
      if probeAvailable (probe i) then
        aggregate modelList probe rest (availableModels ++ [model])
      else aggregate modelList probe rest availableModels

/-- What the outside world answers to one call of `testModels`. -/
structure TestEnv where
  modelsGet : HttpResult
  decodeModels : String → Option (List String)
  probe : Nat → HttpResult
  order : List Nat
  update : UpdateEnv

/-- What one call of `testModels` does: the models for which a probe goroutine
is started, the slice read after `modelWg.Wait()`, the result of the call of
`updateModels` (`none`: it is not called), and the store afterwards. -/
structure TestTrace where
  probed : List String
  availableModels : List String
  update : Option UpdateResult
  store : Store
  deriving DecidableEq, Repr

/-- The function `testModels` (the uptime pushes, whose errors are only
logged, are left out). -/
def testModels (cfg : Config) (env : TestEnv) (store : Store) (channel : Channel) : TestTrace :=
  match discoverModels cfg env.decodeModels env.modelsGet with
  | none => { probed := [], availableModels := [], update := none, store := store }
  | some modelList =>
    let availableModels := aggregate modelList env.probe env.order []
    let r := updateModels cfg env.update store channel.ID availableModels channel.ModelMapping
    { probed := modelList, availableModels := availableModels, update := some r, store := r.store }

/-! ## The loop of `main` -/

/-- What the loop of `main` does, as far as the scheduler is concerned. -/
inductive Event where
  | fetch (ok : Bool)
  | launch (channel : Channel)
  | join
  | tick
  deriving DecidableEq, Repr

/-- The loop over `channels` in `main`: one `go testModels` per channel whose
name is not `"refresh"`. -/
def launchAll : List Channel → List Event
  | [] => []
  | channel :: rest =>
    if channel.Name = "refresh" then launchAll rest
    else Event.launch channel :: launchAll rest

/-- The `for` loop of `main`, run for as many iterations as there are answers
of the store in `queries` (one call of `fetchChannels` per iteration). A failed
load goes on with the next iteration (`continue`); otherwise the pipelines are
launched and joined and the loop receives from `ticker.C`. -/
def mainLoop (cfg : Config) (unmarshal : String → Option GoMap) :
    List (Option (List (Option Row))) → List Event
  | [] => []
  | query :: rest =>
    match fetchChannels cfg unmarshal query with
    | none => Event.fetch false :: mainLoop cfg unmarshal rest
    | some channels =>
      Event.fetch true :: (launchAll channels ++ [Event.join, Event.tick]
        ++ mainLoop cfg unmarshal rest)

/-! ## Failures of the transaction, in program order -/

/-- The database operations of `updateModels` in the order the program
performs them. -/
def Step.all : List Step :=
  [Step.begin, Step.updateModels, Step.deleteRefresh, Step.deleteAbilities,
    Step.enableAbilities, Step.commit]

/-- The first operation that fails, in program order, with its error. -/
def firstFailure (fail : Step → Option String) : Option UpdateError :=
  Step.all.findSome? (fun s => (fail s).map (UpdateError.database s))

/-- The four statements of the transaction, applied in order. -/
def applyStatements (channelID : Int) (models : List String) (d : DB) : DB :=
  stmtEnableAbilities channelID models
    (stmtDeleteAbilities channelID models
      (stmtDeleteRefresh
        (stmtUpdateModels (stringsJoin models ",") channelID d)))

/-! ## Concrete inputs -/

/-- A configuration of the relational mode. -/
def exampleConfig : Config :=
  { ExcludeChannel := [3], ExcludeModel := ["bad"], Models := ["m1", "m2"],
    ForceModels := false, OneAPIType := "oneapi", BaseURL := "", SystemToken := "" }

/-- An outside world in which every database operation succeeds. -/
def noFailure : UpdateEnv :=
  { fail := fun _ => none, detailGet := .transportError,
    decodeDetail := fun _ => none, channelPut := .transportError }

/-- An outside world in which the statement enabling abilities fails. -/
def enableFails : UpdateEnv :=
  { fail := fun s => if s = Step.enableAbilities then some "deadlock" else none,
    detailGet := .transportError, decodeDetail := fun _ => none,
    channelPut := .transportError }

/-- Channel 7 of the end-to-end scenario. -/
def channel7 : Channel :=
  { ID := 7, Typ := 0, Name := "seven", BaseURL := "https://api.example.com",
    Key := "k", Status := 1, ModelMapping := [] }

/-- A store with channel 7, a `refresh` row and two abilities of channel 7. -/
def exampleStore : Store :=
  { committed :=
      { channels :=
          [ { id := 7, type := 0, name := "seven", base_url := "https://api.example.com",
              key := "k", status := 1, model_mapping := "", models := "gpt-a,gpt-b" },
            { id := 8, type := 0, name := "refresh", base_url := "", key := "",
              status := 1, model_mapping := "", models := "" } ],
        abilities :=
          [ { channel_id := 7, model := "gpt-a", enabled := 0 },
            { channel_id := 7, model := "gpt-b", enabled := 1 } ] },
    tx := none }

/-- The probes of the end-to-end scenario: goroutine 0 gets 200, any other 500. -/
def probeAB (i : Nat) : HttpResult :=
  if i = 0 then .response 200 "ok" else .response 500 "error"

/-- The outside world of the end-to-end scenario: the listing answers 200 with
the ids `gpt-a`, `gpt-b`; the probes complete in the order given. -/
def scenarioEnv (order : List Nat) : TestEnv :=
  { modelsGet := .response 200 "listing",
    decodeModels := fun _ => some ["gpt-a", "gpt-b"],
    probe := probeAB, order := order, update := noFailure }

/-! ## Lemmas on the helpers -/

theorem contains_eq_true_iff (slice : List Int) (item : Int) :
    contains slice item = true ↔ item ∈ slice := by
  induction slice with
  | nil => simp [contains]
  | cons v rest ih =>
    by_cases h : v = item
    · simp [contains, h]
    · have h' : ¬ item = v := fun e => h e.symm
      simp [contains, h, h', ih]

theorem containsString_eq_true_iff (slice : List String) (item : String) :
    containsString slice item = true ↔ item ∈ slice := by
  induction slice with
  | nil => simp [containsString]
  | cons v rest ih =>
    by_cases h : v = item
    · simp [containsString, h]
    · have h' : ¬ item = v := fun e => h e.symm
      simp [containsString, h, h', ih]

theorem GoMap.get_set (m : GoMap) (k v x : String) :
    (GoMap.set m k v).get x = if k = x then some v else m.get x := by
  induction m with
  | nil => simp [GoMap.set, GoMap.get]
  | cons e rest ih =>
    obtain ⟨k', v'⟩ := e
    by_cases h : k' = k
    · subst h
      by_cases hx : k' = x <;> simp [GoMap.set, GoMap.get, hx]
    · by_cases hx : k = x
      · subst hx
        simp [GoMap.set, GoMap.get, h, ih]
      · simp [GoMap.set, GoMap.get, h, ih, hx]

/-- An alias that no entry of the mapping carries is looked up in the
accumulator as before the loop. -/
theorem invertLoop_get_of_not_mem (m acc : GoMap) (x : String)
    (h : ∀ k, (k, x) ∉ m) : (invertLoop m acc).get x = acc.get x := by
  induction m generalizing acc with
  | nil => simp [invertLoop]
  | cons e rest ih =>
    obtain ⟨k0, v0⟩ := e
    have hrest : ∀ k, (k, x) ∉ rest := fun k hk => h k (List.mem_cons_of_mem _ hk)
    have hv : v0 ≠ x := by
      intro e
      exact h k0 (by simp [e])
    simp [invertLoop, ih _ hrest, GoMap.get_set, hv]

/-- An alias carried by some entry is found after the loop, with the key of
one of the entries that carry it. -/
theorem invertLoop_get_of_mem (m acc : GoMap) (x : String)
    (h : ∃ k, (k, x) ∈ m) : ∃ k, (k, x) ∈ m ∧ (invertLoop m acc).get x = some k := by
  induction m generalizing acc with
  | nil => simp at h
  | cons e rest ih =>
    obtain ⟨k0, v0⟩ := e
    by_cases hrest : ∃ k, (k, x) ∈ rest
    · obtain ⟨k, hk, hget⟩ := ih (acc.set v0 k0) hrest
      exact ⟨k, List.mem_cons_of_mem _ hk, by simpa [invertLoop] using hget⟩
    · have hnone : ∀ k, (k, x) ∉ rest := fun k hk => hrest ⟨k, hk⟩
      obtain ⟨k, hk⟩ := h
      rcases List.mem_cons.1 hk with heq | hmem
      · have h1 : k = k0 := congrArg Prod.fst heq
        have h2 : x = v0 := congrArg Prod.snd heq
        subst h1 h2
        refine ⟨k, by simp, ?_⟩
        simp [invertLoop, invertLoop_get_of_not_mem _ _ _ hnone, GoMap.get_set]
      · exact absurd hmem (hnone k)

theorem hasSuffix_iff (s t : String) : hasSuffix s t = true ↔ t.data <:+ s.data := by
  simp [hasSuffix]

theorem suffix_append_cancel {α : Type} (a b c : List α) : a ++ c <:+ b ++ c ↔ a <:+ b := by
  rw [← List.reverse_prefix, List.reverse_append, List.reverse_append,
    List.prefix_append_right_inj, List.reverse_prefix]

/-! ## C1: alias rewrite -/

/-- C1 (as stated, refuted): with the alias map `a -> x`, `b -> x` the entry
`x` is the alias of the key `a` and of the key `b`; whichever order `range`
visits the two entries in, the rewritten list holds one key only, so `x` is
not replaced by one of the keys whose alias it is. -/
theorem c1_shared_alias_counterexample :
    (("a", "x") ∈ ([("a", "x"), ("b", "x")] : GoMap)
      ∧ rewriteModels [("a", "x"), ("b", "x")] ["x"] ≠ ["a"])
    ∧ (("b", "x") ∈ ([("b", "x"), ("a", "x")] : GoMap)
      ∧ rewriteModels [("b", "x"), ("a", "x")] ["x"] ≠ ["b"]) := by
  decide

/-- C1 (amended): the rewritten list has the length of the list of available
models; at every position, an entry that is the alias of some canonical key is
replaced by a canonical key whose alias it is, which is the canonical key when
a single key has that alias; an entry that is the alias of no key is left
unchanged. -/
theorem c1_alias_rewrite (modelMapping : GoMap) (models : List String) :
    (rewriteModels modelMapping models).length = models.length
    ∧ (∀ (i : Nat) (model k : String), models[i]? = some model → (k, model) ∈ modelMapping →
        ∃ k', (k', model) ∈ modelMapping ∧ (rewriteModels modelMapping models)[i]? = some k')
    ∧ (∀ (i : Nat) (model k : String), models[i]? = some model → (k, model) ∈ modelMapping →
        (∀ k', (k', model) ∈ modelMapping → k' = k) →
        (rewriteModels modelMapping models)[i]? = some k)
    ∧ (∀ (i : Nat) (model : String), models[i]? = some model →
        (∀ k, (k, model) ∉ modelMapping) →
        (rewriteModels modelMapping models)[i]? = some model) := by
  have key : ∀ (i : Nat) (model k : String), models[i]? = some model →
      (k, model) ∈ modelMapping →
      ∃ k', (k', model) ∈ modelMapping ∧
        (rewriteModels modelMapping models)[i]? = some k' := by
    intro i model k hi hk
    obtain ⟨k', hk', hget⟩ := invertLoop_get_of_mem modelMapping [] model ⟨k, hk⟩
    refine ⟨k', hk', ?_⟩
    simp [rewriteModels, invertMapping, List.getElem?_map, hi, hget]
  refine ⟨by simp [rewriteModels], key, ?_, ?_⟩
  · intro i model k hi hk huniq
    obtain ⟨k', hk', hget⟩ := key i model k hi hk
    rw [hget, huniq k' hk']
  · intro i model hi hnone
    have hget := invertLoop_get_of_not_mem modelMapping [] model hnone
    simp [rewriteModels, invertMapping, List.getElem?_map, hi, hget, GoMap.get]

/-- C1, at a concrete input: with the alias map `gpt-4 -> azure-gpt4` the
available list `[azure-gpt4, other]` is rewritten at position 0 to `gpt-4`. -/
theorem c1_alias_rewrite_witness :
    (rewriteModels [("gpt-4", "azure-gpt4")] ["azure-gpt4", "other"])[0]? = some "gpt-4" :=
  (c1_alias_rewrite [("gpt-4", "azure-gpt4")] ["azure-gpt4", "other"]).2.2.1
    0 "azure-gpt4" "gpt-4" (by decide) (by decide) (by
      intro k' hk'
      have h : (k', "azure-gpt4") = (("gpt-4", "azure-gpt4") : String × String) := by
        simpa using hk'
      exact congrArg Prod.fst h)

/-! ## C2, C3: probe URL -/

/-- C2: for the base URLs `https://x/v1`, `https://x/v1/chat` and `https://x`
the probe URL is `https://x/v1/chat/completions`. -/
theorem c2_probe_url_three_bases :
    probeURL "https://x/v1" = "https://x/v1/chat/completions"
    ∧ probeURL "https://x/v1/chat" = "https://x/v1/chat/completions"
    ∧ probeURL "https://x" = "https://x/v1/chat/completions" := by
  decide

/-- C3 (as stated, refuted): the base URL `https://x/chat` does not contain
`/v1/chat/completions`, and its probe URL `https://x/chat/completions` does not
end with `/v1/chat/completions`: no version segment is appended. -/
theorem c3_chat_suffix_counterexample :
    stringsContains "https://x/chat" "/v1/chat/completions" = false
    ∧ probeURL "https://x/chat" = "https://x/chat/completions"
    ∧ hasSuffix (probeURL "https://x/chat") "/v1/chat/completions" = false := by
  decide

/-- C3 (amended): for every base URL that does not contain
`/v1/chat/completions`, the probe URL is the base URL followed by
`/completions` (base ending with `/chat`), by `/chat/completions` (base ending
with `/v1`) or by `/v1/chat/completions` (otherwise); it always ends with
`/chat/completions`, and it ends with `/v1/chat/completions` exactly when the
base URL does not end with `/chat` or ends with `/v1/chat`. -/
theorem c3_probe_url_segments (baseURL : String)
    (h : stringsContains baseURL "/v1/chat/completions" = false) :
    (probeURL baseURL =
        if hasSuffix baseURL "/chat" then baseURL ++ "/completions"
        else if hasSuffix baseURL "/v1" then baseURL ++ "/chat/completions"
        else baseURL ++ "/v1/chat/completions")
    ∧ hasSuffix (probeURL baseURL) "/chat/completions" = true
    ∧ (hasSuffix (probeURL baseURL) "/v1/chat/completions" = true ↔
        (hasSuffix baseURL "/chat" = false ∨ hasSuffix baseURL "/v1/chat" = true)) := by
  have e1 : "/chat/completions".data = "/chat".data ++ "/completions".data := by decide
  have e2 : "/v1/chat/completions".data = "/v1/chat".data ++ "/completions".data := by decide
  have e3 : "/v1/chat/completions".data = "/v1".data ++ "/chat/completions".data := by decide
  have e4 : "/v1/chat".data = "/v1".data ++ "/chat".data := by decide
  have hurl : probeURL baseURL =
      if hasSuffix baseURL "/chat" then baseURL ++ "/completions"
      else if hasSuffix baseURL "/v1" then baseURL ++ "/chat/completions"
      else baseURL ++ "/v1/chat/completions" := by
    unfold probeURL
    rw [h]
    by_cases hc : hasSuffix baseURL "/chat" = true
    · simp [hc]
    · by_cases hv : hasSuffix baseURL "/v1" = true
      · simp only [hc, hv]
        apply String.ext
        simp [String.data_append, e1]
      · simp only [hc, hv]
        apply String.ext
        simp [String.data_append, e3, e1]
  refine ⟨hurl, ?_, ?_⟩
  · rw [hurl]
    by_cases hc : hasSuffix baseURL "/chat" = true
    · rw [if_pos hc, hasSuffix_iff, String.data_append, e1, suffix_append_cancel]
      exact (hasSuffix_iff _ _).1 hc
    · rw [if_neg hc]
      by_cases hv : hasSuffix baseURL "/v1" = true
      · rw [if_pos hv, hasSuffix_iff, String.data_append]
        exact List.suffix_append _ _
      · rw [if_neg hv, hasSuffix_iff, String.data_append, e3, ← List.append_assoc]
        exact List.suffix_append _ _
  · rw [hurl]
    by_cases hc : hasSuffix baseURL "/chat" = true
    · rw [if_pos hc, hasSuffix_iff, String.data_append, e2, suffix_append_cancel,
        ← hasSuffix_iff]
      simp [hc]
    · rw [if_neg hc]
      have hcf : hasSuffix baseURL "/chat" = false := by simpa using hc
      by_cases hv : hasSuffix baseURL "/v1" = true
      · rw [if_pos hv, hasSuffix_iff, String.data_append, e3, suffix_append_cancel]
        simp [hcf, (hasSuffix_iff _ _).1 hv]
      · rw [if_neg hv, hasSuffix_iff, String.data_append]
        simp [hcf, List.suffix_append]

/-- C3, at a concrete input: the base URL `https://x/api` gets all three
segments appended. -/
theorem c3_probe_url_segments_witness :
    stringsContains "https://x/api" "/v1/chat/completions" = false
    ∧ hasSuffix (probeURL "https://x/api") "/chat/completions" = true :=
  ⟨by decide, (c3_probe_url_segments "https://x/api" (by decide)).2.1⟩

/-! ## C4: aggregation of the probes of one channel -/

/-- The appends of `aggregate`, as one pass over the completion order. -/
theorem aggregate_eq (modelList : List String) (probe : Nat → HttpResult)
    (order : List Nat) (acc : List String) :
    aggregate modelList probe order acc =
      acc ++ order.filterMap
        (fun i => if probeAvailable (probe i) then modelList[i]? else none) := by
  induction order generalizing acc with
  | nil => simp [aggregate]
  | cons i rest ih =>
    cases hm : modelList[i]? with
    | none => simp [aggregate, hm, ih, List.filterMap_cons]
    | some model =>
      by_cases hp : probeAvailable (probe i) = true
      · simp [aggregate, hm, hp, ih, List.filterMap_cons]
      · simp [aggregate, hm, hp, ih, List.filterMap_cons]

/-- Over indices inside the list, the successful probes and the appended
models are equally many. -/
theorem successes_length (modelList : List String) (probe : Nat → HttpResult)
    (l : List Nat) (h : ∀ i ∈ l, i < modelList.length) :
    (l.filterMap (fun i => if probeAvailable (probe i) then modelList[i]? else none)).length
      = (l.filter (fun i => probeAvailable (probe i))).length := by
  induction l with
  | nil => simp
  | cons i rest ih =>
    have hi : i < modelList.length := h i (List.mem_cons_self _ _)
    have hrest : ∀ j ∈ rest, j < modelList.length :=
      fun j hj => h j (List.mem_cons_of_mem _ hj)
    have hsome : modelList[i]? = some modelList[i] := List.getElem?_eq_getElem hi
    by_cases hp : probeAvailable (probe i) = true
    · simp [List.filterMap_cons, List.filter_cons, hp, hsome, ih hrest]
    · simp [List.filterMap_cons, List.filter_cons, hp, ih hrest]

/-- C4 (as stated, refuted): the candidate list `[m, m]` (a listing may repeat
an id) with both probes answered 200 aggregates to `[m, m]`, which has a
duplicate; and with the first probe answered 200 and the second 500 the
aggregate `[m]` holds the model `m` although a probe of `m` returned 500. -/
theorem c4_duplicate_candidates_counterexample :
    (aggregate ["m", "m"] (fun _ => HttpResult.response 200 "") [0, 1] [] = ["m", "m"]
      ∧ ¬ (aggregate ["m", "m"] (fun _ => HttpResult.response 200 "") [0, 1] []).Nodup)
    ∧ ((["m", "m"] : List String)[1]? = some "m"
      ∧ probeAvailable (probeAB 1) = false
      ∧ "m" ∈ aggregate ["m", "m"] probeAB [0, 1] []) := by
  decide

/-- C4 (amended): for every candidate list and every completion order of its
probes (a permutation of the goroutine indices), the aggregated list has as
many entries as there are probes answered with status 200, holds every model
one of whose probes was answered 200, and every entry of it is a model one of
whose probes was answered 200. When the candidate list has no duplicates, the
aggregate has none and holds no model whose probe got another status or an
error. In the scenario `[gpt-a, gpt-b]` with 200 and 500 the aggregate is
`[gpt-a]` in both orders and the written model string is `gpt-a`. -/
theorem c4_aggregation :
    (∀ (modelList : List String) (probe : Nat → HttpResult) (order : List Nat),
      order.Perm (List.range modelList.length) →
      (aggregate modelList probe order []).length
          = ((List.range modelList.length).filter (fun i => probeAvailable (probe i))).length
      ∧ (∀ (i : Nat) (model : String), modelList[i]? = some model →
          probeAvailable (probe i) = true → model ∈ aggregate modelList probe order [])
      ∧ (∀ model ∈ aggregate modelList probe order [],
          ∃ i, modelList[i]? = some model ∧ probeAvailable (probe i) = true)
      ∧ (modelList.Nodup →
          (aggregate modelList probe order []).Nodup
          ∧ ∀ (i : Nat) (model : String), modelList[i]? = some model →
              probeAvailable (probe i) = false → model ∉ aggregate modelList probe order []))
    ∧ (∀ order ∈ [[0, 1], [1, 0]],
        (testModels exampleConfig (scenarioEnv order) exampleStore channel7).availableModels
          = ["gpt-a"]
        ∧ ((testModels exampleConfig (scenarioEnv order) exampleStore channel7).store.committed.channels.map
            (fun r => (r.id, r.models))) = [(7, "gpt-a")]) := by
  refine ⟨?_, by decide⟩
  intro modelList probe order hperm
  have hmem : ∀ model, model ∈ aggregate modelList probe order [] ↔
      ∃ i, modelList[i]? = some model ∧ probeAvailable (probe i) = true := by
    intro model
    rw [aggregate_eq, List.nil_append, List.mem_filterMap]
    constructor
    · rintro ⟨i, _, hi⟩
      by_cases hp : probeAvailable (probe i) = true
      · exact ⟨i, by simpa [hp] using hi, hp⟩
      · simp [hp] at hi
    · rintro ⟨i, hi, hp⟩
      have hlt : i < modelList.length := by
        rcases Nat.lt_or_ge i modelList.length with h | h
        · exact h
        · rw [List.getElem?_eq_none h] at hi
          cases hi
      exact ⟨i, hperm.mem_iff.2 (List.mem_range.2 hlt), by simp [hp, hi]⟩
  have hinj : modelList.Nodup → ∀ (i j : Nat) (model : String),
      modelList[i]? = some model → modelList[j]? = some model → i = j := by
    intro hnd i j model hi hj
    have hlt : i < modelList.length := by
      rcases Nat.lt_or_ge i modelList.length with h | h
      · exact h
      · rw [List.getElem?_eq_none h] at hi
        cases hi
    exact List.getElem?_inj hlt hnd (hi.trans hj.symm)
  refine ⟨?_, ?_, ?_, ?_⟩
  · rw [aggregate_eq, List.nil_append, (hperm.filterMap _).length_eq]
    exact successes_length modelList probe _ (fun i hi => List.mem_range.1 hi)
  · intro i model hi hp
    exact (hmem model).2 ⟨i, hi, hp⟩
  · intro model h
    exact (hmem model).1 h
  · intro hnd
    constructor
    · rw [aggregate_eq, List.nil_append, (hperm.filterMap _).nodup_iff]
      refine List.Nodup.filterMap ?_ (List.nodup_range _)
      intro a a' b ha ha'
      by_cases hpa : probeAvailable (probe a) = true
      · by_cases hpa' : probeAvailable (probe a') = true
        · simp [hpa] at ha
          simp [hpa'] at ha'
          exact hinj hnd a a' b ha ha'
        · simp [hpa'] at ha'
      · simp [hpa] at ha
    · intro i model hi hp hin
      obtain ⟨j, hj, hpj⟩ := (hmem model).1 hin
      have : i = j := hinj hnd i j model hi hj
      subst this
      rw [hp] at hpj
      cases hpj

/-- C4, at a concrete input: three distinct candidates, the probes complete in
the order 2, 0, 1 and only goroutine 0 gets 200; one entry is aggregated. -/
theorem c4_aggregation_witness :
    (aggregate ["gpt-a", "gpt-b", "gpt-c"] probeAB [2, 0, 1] []).length
      = ((List.range 3).filter (fun i => probeAvailable (probeAB i))).length :=
  (c4_aggregation.1 ["gpt-a", "gpt-b", "gpt-c"] probeAB [2, 0, 1] (by decide)).1

/-! ## C5, C6: discovery -/

theorem collectModels_eq (cfg : Config) (ids modelList : List String) :
    collectModels cfg ids modelList =
      modelList ++ ids.filter (fun id => decide (id ∉ cfg.ExcludeModel)) := by
  induction ids generalizing modelList with
  | nil => simp [collectModels]
  | cons id rest ih =>
    by_cases h : id ∈ cfg.ExcludeModel
    · have hc : containsString cfg.ExcludeModel id = true :=
        (containsString_eq_true_iff _ _).2 h
      simp [collectModels, hc, ih, List.filter_cons, h]
    · have hc : containsString cfg.ExcludeModel id = false := by
        cases hb : containsString cfg.ExcludeModel id with
        | false => rfl
        | true => exact absurd ((containsString_eq_true_iff _ _).1 hb) h
      simp [collectModels, hc, ih, List.filter_cons, h]

/-- C5: when force-models mode is on, or when the GET of the model listing
fails with a transport error, one probe is started per entry of the
configured model list, in its order, and `updateModels` is called with what
they aggregate; when the GET returns a non-200 status, or a 200 whose body
does not decode, no probe is started, `updateModels` is not called and the
store is as before. -/
theorem c5_discovery_degrade_or_abort (cfg : Config) (env : TestEnv) (store : Store)
    (channel : Channel) :
    ((cfg.ForceModels = true ∨ (cfg.ForceModels = false ∧ env.modelsGet = .transportError)) →
      discoverModels cfg env.decodeModels env.modelsGet = some cfg.Models
      ∧ (testModels cfg env store channel).probed = cfg.Models
      ∧ (testModels cfg env store channel).update =
          some (updateModels cfg env.update store channel.ID
            (aggregate cfg.Models env.probe env.order []) channel.ModelMapping))
    ∧ (cfg.ForceModels = false →
        ∀ (status : Int) (body : String), env.modelsGet = .response status body →
        (status ≠ 200 ∨ env.decodeModels body = none) →
        discoverModels cfg env.decodeModels env.modelsGet = none
        ∧ (testModels cfg env store channel).probed = []
        ∧ (testModels cfg env store channel).update = none
        ∧ (testModels cfg env store channel).store = store) := by
  constructor
  · intro h
    have hd : discoverModels cfg env.decodeModels env.modelsGet = some cfg.Models := by
      rcases h with hf | ⟨hf, hg⟩
      · simp [discoverModels, hf]
      · simp [discoverModels, hf, hg]
    simp [testModels, hd]
  · intro hf status body hg hbad
    have hd : discoverModels cfg env.decodeModels env.modelsGet = none := by
      rcases hbad with hs | hj
      · simp [discoverModels, hf, hg, hs]
      · by_cases hs : status = 200
        · simp [discoverModels, hf, hg, hs, hj]
        · simp [discoverModels, hf, hg, hs]
    simp [testModels, hd]

/-- C5, at a concrete input: the listing of channel 7 answers 503; nothing is
probed and `updateModels` is not called. -/
theorem c5_discovery_degrade_or_abort_witness :
    (testModels exampleConfig
        { modelsGet := .response 503 "unavailable", decodeModels := fun _ => none,
          probe := probeAB, order := [0, 1], update := noFailure }
        exampleStore channel7).probed = []
    ∧ (testModels exampleConfig
        { modelsGet := .response 503 "unavailable", decodeModels := fun _ => none,
          probe := probeAB, order := [0, 1], update := noFailure }
        exampleStore channel7).update = none :=
  have h := (c5_discovery_degrade_or_abort exampleConfig
      { modelsGet := .response 503 "unavailable", decodeModels := fun _ => none,
        probe := probeAB, order := [0, 1], update := noFailure }
      exampleStore channel7).2 rfl 503 "unavailable" rfl (Or.inl (by decide))
  ⟨h.2.1, h.2.2.1⟩

/-- C6: on a 200 response that decodes, the candidate model list is the
sequence of the response ids that are not in the exclusion list, in response
order, and these are the models probed. -/
theorem c6_discovery_filter (cfg : Config) (env : TestEnv) (store : Store) (channel : Channel)
    (body : String) (ids : List String)
    (hforce : cfg.ForceModels = false)
    (hget : env.modelsGet = .response 200 body)
    (hdecode : env.decodeModels body = some ids) :
    discoverModels cfg env.decodeModels env.modelsGet
        = some (ids.filter (fun id => decide (id ∉ cfg.ExcludeModel)))
    ∧ (testModels cfg env store channel).probed
        = ids.filter (fun id => decide (id ∉ cfg.ExcludeModel)) := by
  have hd : discoverModels cfg env.decodeModels env.modelsGet
      = some (ids.filter (fun id => decide (id ∉ cfg.ExcludeModel))) := by
    simp [discoverModels, hforce, hget, hdecode, collectModels_eq]
  exact ⟨hd, by simp [testModels, hd]⟩

/-- C6, at a concrete input: the listing `[a, bad, a, b]` with `bad` excluded
gives the candidates `[a, a, b]`. -/
theorem c6_discovery_filter_witness :
    (testModels exampleConfig
        { modelsGet := .response 200 "listing", decodeModels := fun _ => some ["a", "bad", "a", "b"],
          probe := probeAB, order := [0, 1, 2], update := noFailure }
        exampleStore channel7).probed
      = ["a", "bad", "a", "b"].filter (fun id => decide (id ∉ exampleConfig.ExcludeModel)) :=
  (c6_discovery_filter exampleConfig
      { modelsGet := .response 200 "listing", decodeModels := fun _ => some ["a", "bad", "a", "b"],
        probe := probeAB, order := [0, 1, 2], update := noFailure }
      exampleStore channel7 "listing" ["a", "bad", "a", "b"] rfl rfl rfl).2

/-! ## C7: static exclusion of channels -/

theorem contains_eq_false_iff (slice : List Int) (item : Int) :
    contains slice item = false ↔ item ∉ slice := by
  rw [← contains_eq_true_iff]
  cases contains slice item <;> simp

/-- With every row scanned and decoded, the loop appends the decoded rows that
are not excluded. -/
theorem fetchLoop_decoded (cfg : Config) (unmarshal : String → Option GoMap)
    (rows : List Row) (decoded acc : List Channel)
    (h : rows.map (decodeRow unmarshal) = decoded.map some) :
    fetchLoop cfg unmarshal (rows.map some) acc
      = some (acc ++ decoded.filter (fun c => decide (c.ID ∉ cfg.ExcludeChannel))) := by
  induction rows generalizing decoded acc with
  | nil =>
    cases decoded with
    | nil => simp [fetchLoop]
    | cons c cs => simp at h
  | cons r rest ih =>
    cases decoded with
    | nil => simp at h
    | cons c cs =>
      simp only [List.map_cons, List.cons.injEq] at h
      obtain ⟨hr, hrest⟩ := h
      by_cases hex : c.ID ∈ cfg.ExcludeChannel
      · have hc : contains cfg.ExcludeChannel c.ID = true := (contains_eq_true_iff _ _).2 hex
        simp [fetchLoop, hr, hc, ih cs acc hrest, List.filter_cons, hex]
      · have hc : contains cfg.ExcludeChannel c.ID = false := (contains_eq_false_iff _ _).2 hex
        simp [fetchLoop, hr, hc, ih cs (acc ++ [c]) hrest, List.filter_cons, hex]

/-- Whatever the rows, a channel returned by the loop was in the accumulator
or has an ID outside the exclusion list. -/
theorem fetchLoop_not_excluded (cfg : Config) (unmarshal : String → Option GoMap)
    (rows : List (Option Row)) (acc out : List Channel)
    (h : fetchLoop cfg unmarshal rows acc = some out) :
    ∀ c ∈ out, c ∈ acc ∨ c.ID ∉ cfg.ExcludeChannel := by
  induction rows generalizing acc with
  | nil =>
    simp only [fetchLoop, Option.some.injEq] at h
    subst h
    exact fun c hc => Or.inl hc
  | cons r rest ih =>
    cases r with
    | none => simp [fetchLoop] at h
    | some r =>
      cases hd : decodeRow unmarshal r with
      | none => simp [fetchLoop, hd] at h
      | some c0 =>
        by_cases hex : contains cfg.ExcludeChannel c0.ID = true
        · simp only [fetchLoop, hd, hex, if_true] at h
          exact ih acc h
        · have hc : contains cfg.ExcludeChannel c0.ID = false := by simpa using hex
          simp only [fetchLoop, hd, hc] at h
          intro c hcout
          rcases ih (acc ++ [c0]) h c hcout with hin | hnot
          · rcases List.mem_append.1 hin with hacc | hlast
            · exact Or.inl hacc
            · have : c = c0 := by simpa using hlast
              subst this
              exact Or.inr ((contains_eq_false_iff _ _).1 hc)
          · exact Or.inr hnot

theorem launchAll_mem (channels : List Channel) (c : Channel) :
    Event.launch c ∈ launchAll channels ↔ c ∈ channels ∧ c.Name ≠ "refresh" := by
  induction channels with
  | nil => simp [launchAll]
  | cons ch rest ih =>
    by_cases hn : ch.Name = "refresh"
    · simp only [launchAll, hn, if_true, ih, List.mem_cons]
      constructor
      · rintro ⟨h1, h2⟩
        exact ⟨Or.inr h1, h2⟩
      · rintro ⟨h1 | h1, h2⟩
        · subst h1
          exact absurd hn h2
        · exact ⟨h1, h2⟩
    · simp only [launchAll, hn, if_false, List.mem_cons, Event.launch.injEq, ih]
      constructor
      · rintro (h1 | ⟨h1, h2⟩)
        · subst h1
          exact ⟨Or.inl rfl, hn⟩
        · exact ⟨Or.inr h1, h2⟩
      · rintro ⟨h1 | h1, h2⟩
        · exact Or.inl h1
        · exact Or.inr ⟨h1, h2⟩

/-- Every pipeline the loop of `main` launches is for a channel that some load
returned and whose name is not `refresh`. -/
theorem mainLoop_launch (cfg : Config) (unmarshal : String → Option GoMap)
    (queries : List (Option (List (Option Row)))) (c : Channel)
    (h : Event.launch c ∈ mainLoop cfg unmarshal queries) :
    c.Name ≠ "refresh" ∧
      ∃ query ∈ queries, ∃ channels, fetchChannels cfg unmarshal query = some channels
        ∧ c ∈ channels := by
  induction queries with
  | nil => simp [mainLoop] at h
  | cons query rest ih =>
    cases hf : fetchChannels cfg unmarshal query with
    | none =>
      simp only [mainLoop, hf, List.mem_cons] at h
      rcases h with h | h
      · cases h
      · obtain ⟨h1, q, hq, chs, hchs, hc⟩ := ih h
        exact ⟨h1, q, List.mem_cons_of_mem _ hq, chs, hchs, hc⟩
    | some channels =>
      simp only [mainLoop, hf, List.mem_cons, List.mem_append] at h
      rcases h with h | (h | h) | h
      · cases h
      · obtain ⟨h1, h2⟩ := (launchAll_mem channels c).1 h
        exact ⟨h2, query, List.mem_cons_self _ _, channels, hf, h1⟩
      · rcases h with h | h
        · cases h
        · rcases h with h | h
          · cases h
          · cases h
      · obtain ⟨h1, q, hq, chs, hchs, hc⟩ := ih h
        exact ⟨h1, q, List.mem_cons_of_mem _ hq, chs, hchs, hc⟩

/-- C7: when every row scans and decodes, `fetchChannels` succeeds and returns
the decoded rows whose ID is not in the exclusion list, in row order (each
decoded row keeps the ID of its row); and whatever the store answers, no
pipeline is launched by `main` for a channel whose ID is in the exclusion
list. -/
theorem c7_static_exclusion (cfg : Config) (unmarshal : String → Option GoMap) :
    (∀ (rows : List Row) (decoded : List Channel),
      rows.map (decodeRow unmarshal) = decoded.map some →
      fetchChannels cfg unmarshal (some (rows.map some))
          = some (decoded.filter (fun c => decide (c.ID ∉ cfg.ExcludeChannel)))
      ∧ decoded.map (fun c => c.ID) = rows.map (fun r => r.id))
    ∧ (∀ (queries : List (Option (List (Option Row)))) (c : Channel),
        Event.launch c ∈ mainLoop cfg unmarshal queries → c.ID ∉ cfg.ExcludeChannel) := by
  constructor
  · intro rows decoded h
    refine ⟨by simpa [fetchChannels] using fetchLoop_decoded cfg unmarshal rows decoded [] h, ?_⟩
    have hid : ∀ (r : Row) (c : Channel), decodeRow unmarshal r = some c → c.ID = r.id := by
      intro r c hrc
      unfold decodeRow at hrc
      by_cases he : r.model_mapping = ""
      · simp only [he, if_true, Option.some.injEq] at hrc
        rw [← hrc]
      · simp only [he, if_false] at hrc
        cases hu : unmarshal r.model_mapping with
        | none => simp [hu] at hrc
        | some m =>
          simp only [hu, Option.some.injEq] at hrc
          rw [← hrc]
    clear cfg
    induction rows generalizing decoded with
    | nil =>
      cases decoded with
      | nil => rfl
      | cons c cs => simp at h
    | cons r rest ih =>
      cases decoded with
      | nil => simp at h
      | cons c cs =>
        simp only [List.map_cons, List.cons.injEq] at h
        simp only [List.map_cons, List.cons.injEq]
        exact ⟨hid r c h.1, ih cs h.2⟩
  · intro queries c h
    obtain ⟨_, query, _, channels, hf, hc⟩ := mainLoop_launch cfg unmarshal queries c h
    cases query with
    | none => simp [fetchChannels] at hf
    | some rows =>
      rcases fetchLoop_not_excluded cfg unmarshal rows [] channels
        (by simpa [fetchChannels] using hf) c hc with h0 | h1
      · simp at h0
      · exact h1

/-- C7, at a concrete input: of the rows with IDs 3 and 7, with 3 excluded,
`fetchChannels` returns the channel of row 7 only. -/
theorem c7_static_exclusion_witness :
    fetchChannels exampleConfig (fun _ => none)
        (some ([ { id := 3, type := 1, name := "three", base_url := "", key := "k3",
                   status := 1, model_mapping := "" },
                 { id := 7, type := 0, name := "seven", base_url := "https://api.example.com",
                   key := "k", status := 1, model_mapping := "" } ].map some))
      = some ([ { ID := 3, Typ := 1, Name := "three", BaseURL := "https://api.openai.com",
                  Key := "k3", Status := 1, ModelMapping := [] }, channel7 ].filter
          (fun c => decide (c.ID ∉ exampleConfig.ExcludeChannel))) :=
  ((c7_static_exclusion exampleConfig (fun _ => none)).1
    [ { id := 3, type := 1, name := "three", base_url := "", key := "k3",
        status := 1, model_mapping := "" },
      { id := 7, type := 0, name := "seven", base_url := "https://api.example.com",
        key := "k", status := 1, model_mapping := "" } ]
    [ { ID := 3, Typ := 1, Name := "three", BaseURL := "https://api.openai.com",
        Key := "k3", Status := 1, ModelMapping := [] }, channel7 ]
    (by decide)).1

/-! ## C8, C9: the relational transaction -/

theorem firstFailure_eq_none_iff (fail : Step → Option String) :
    firstFailure fail = none ↔ ∀ s, fail s = none := by
  constructor
  · intro h s
    cases h0 : fail Step.begin <;> cases h1 : fail Step.updateModels <;>
      cases h2 : fail Step.deleteRefresh <;> cases h3 : fail Step.deleteAbilities <;>
      cases h4 : fail Step.enableAbilities <;> cases h5 : fail Step.commit <;>
      simp [firstFailure, Step.all, List.findSome?, h0, h1, h2, h3, h4, h5] at h
    cases s <;> assumption
  · intro h
    simp [firstFailure, Step.all, List.findSome?, h]

/-- The transaction of `updateModels`: it returns the error of the first
operation that fails; called with no transaction open it leaves none open; on
an error the committed
tables are those before the call, and without error they are those the four
statements produce. -/
theorem updateRelational_spec (env : UpdateEnv) (store : Store) (channelID : Int)
    (models : List String) :
    (updateRelational env store channelID models).err = firstFailure env.fail
    ∧ (store.tx = none → (updateRelational env store channelID models).store.tx = none)
    ∧ (firstFailure env.fail ≠ none →
        (updateRelational env store channelID models).store.committed = store.committed)
    ∧ (firstFailure env.fail = none →
        (updateRelational env store channelID models).store.committed
          = applyStatements channelID models store.committed) := by
  cases h0 : env.fail Step.begin <;> cases h1 : env.fail Step.updateModels <;>
    cases h2 : env.fail Step.deleteRefresh <;> cases h3 : env.fail Step.deleteAbilities <;>
    cases h4 : env.fail Step.enableAbilities <;> cases h5 : env.fail Step.commit <;>
    simp [updateRelational, firstFailure, Step.all, List.findSome?, h0, h1, h2, h3, h4, h5,
      Store.begin, Store.exec, Store.rollback, Store.commit, applyStatements]

theorem stmtEnableAbilities_channels (channelID : Int) (models : List String) (d : DB) :
    (stmtEnableAbilities channelID models d).channels = d.channels := rfl

theorem stmtDeleteAbilities_channels (channelID : Int) (models : List String) (d : DB) :
    (stmtDeleteAbilities channelID models d).channels = d.channels := rfl

theorem applyStatements_no_refresh (channelID : Int) (models : List String) (d : DB) :
    ∀ row ∈ (applyStatements channelID models d).channels, row.name ≠ "refresh" := by
  intro row hrow
  simp only [applyStatements, stmtEnableAbilities_channels, stmtDeleteAbilities_channels,
    stmtDeleteRefresh, List.mem_filter] at hrow
  simpa using hrow.2

/-- C8: in relational mode, called with no transaction open, `updateModels`
returns the error of the first of the six operations (begin, the four
statements, commit) that fails, and then the store is the store before the
call (same committed tables, no transaction open);
in particular when the statement enabling abilities fails after the models
update was applied, the stored channel rows (with their model lists) are
unchanged. The committed tables differ from those before the call only when
no operation fails, and then they are what the four statements produce. -/
theorem c8_relational_atomicity (cfg : Config) (env : UpdateEnv) (store : Store)
    (channelID : Int) (models : List String) (modelMapping : GoMap)
    (hmode : cfg.OneAPIType ≠ "onehub") (hidle : store.tx = none) :
    (updateModels cfg env store channelID models modelMapping).err = firstFailure env.fail
    ∧ ((∃ s, env.fail s ≠ none) →
        (updateModels cfg env store channelID models modelMapping).err ≠ none
        ∧ (updateModels cfg env store channelID models modelMapping).store = store)
    ∧ (∀ e, env.fail Step.begin = none → env.fail Step.updateModels = none →
        env.fail Step.deleteRefresh = none → env.fail Step.deleteAbilities = none →
        env.fail Step.enableAbilities = some e →
        (updateModels cfg env store channelID models modelMapping).err
            = some (UpdateError.database Step.enableAbilities e)
        ∧ (updateModels cfg env store channelID models modelMapping).store.committed.channels
            = store.committed.channels)
    ∧ ((updateModels cfg env store channelID models modelMapping).store.committed
          ≠ store.committed → ∀ s, env.fail s = none)
    ∧ ((∀ s, env.fail s = none) →
        (updateModels cfg env store channelID models modelMapping).err = none
        ∧ (updateModels cfg env store channelID models modelMapping).store.committed
            = applyStatements channelID (rewriteModels modelMapping models) store.committed) := by
  have hu : updateModels cfg env store channelID models modelMapping
      = updateRelational env store channelID (rewriteModels modelMapping models) := by
    simp [updateModels, hmode]
  obtain ⟨herr, htx, hfail, hok⟩ :=
    updateRelational_spec env store channelID (rewriteModels modelMapping models)
  rw [hu]
  have hsome : (∃ s, env.fail s ≠ none) → firstFailure env.fail ≠ none := by
    rintro ⟨s, hs⟩ hnone
    exact hs ((firstFailure_eq_none_iff env.fail).1 hnone s)
  refine ⟨herr, ?_, ?_, ?_, ?_⟩
  · intro hex
    refine ⟨by rw [herr]; exact hsome hex, ?_⟩
    have hc := hfail (hsome hex)
    have ht := htx hidle
    revert hc ht
    generalize updateRelational env store channelID (rewriteModels modelMapping models) = r
    intro hc ht
    cases r with
    | mk err st put =>
      cases st with
      | mk committed tx =>
        cases store with
        | mk committed0 tx0 =>
          simp only at hc ht hidle
          subst hc ht hidle
          rfl
  · intro e h0 h1 h2 h3 h4
    have hne : firstFailure env.fail ≠ none := hsome ⟨Step.enableAbilities, by simp [h4]⟩
    refine ⟨?_, by rw [hfail hne]⟩
    rw [herr]
    simp [firstFailure, Step.all, List.findSome?, h0, h1, h2, h3, h4]
  · intro hne
    by_contra hcon
    have : firstFailure env.fail ≠ none := fun h =>
      hcon ((firstFailure_eq_none_iff env.fail).1 h)
    exact hne (hfail this)
  · intro hall
    have hnone := (firstFailure_eq_none_iff env.fail).2 hall
    exact ⟨by rw [herr, hnone], hok hnone⟩

/-- C8, at a concrete input: the reconciliation of channel 7 with `[gpt-a]`
in which the statement enabling abilities fails returns that error and leaves
the stored model list of channel 7 as it was. -/
theorem c8_relational_atomicity_witness :
    (updateModels exampleConfig enableFails exampleStore 7 ["gpt-a"] []).err
        = some (UpdateError.database Step.enableAbilities "deadlock")
    ∧ (updateModels exampleConfig enableFails exampleStore 7 ["gpt-a"] []).store.committed.channels
        = exampleStore.committed.channels :=
  (c8_relational_atomicity exampleConfig enableFails exampleStore 7 ["gpt-a"] []
    (by decide) rfl).2.2.1 "deadlock" rfl rfl rfl rfl rfl

/-- C9 (as stated, refuted): a relational reconciliation run in which the
statement enabling abilities fails is rolled back, and the row named `refresh`
that was in the channel table before the run is still there after it. -/
theorem c9_failed_run_counterexample :
    exampleConfig.OneAPIType ≠ "onehub"
    ∧ (updateModels exampleConfig enableFails exampleStore 7 ["gpt-a"] []).err ≠ none
    ∧ ∃ row ∈ (updateModels exampleConfig enableFails exampleStore 7 ["gpt-a"]
        []).store.committed.channels, row.name = "refresh" := by
  decide

/-- C9 (amended): in every cycle no pipeline is launched for a channel whose
name is `refresh`; and after every relational-mode reconciliation run that
returns without error, for whichever channel ID it was triggered, the channel
table contains no row named `refresh`. -/
theorem c9_sentinel_refresh :
    (∀ (cfg : Config) (unmarshal : String → Option GoMap)
        (queries : List (Option (List (Option Row)))) (c : Channel),
        Event.launch c ∈ mainLoop cfg unmarshal queries → c.Name ≠ "refresh")
    ∧ (∀ (cfg : Config) (env : UpdateEnv) (store : Store) (channelID : Int)
        (models : List String) (modelMapping : GoMap),
        cfg.OneAPIType ≠ "onehub" →
        (updateModels cfg env store channelID models modelMapping).err = none →
        ∀ row ∈ (updateModels cfg env store channelID models modelMapping).store.committed.channels,
          row.name ≠ "refresh") := by
  constructor
  · intro cfg unmarshal queries c h
    exact (mainLoop_launch cfg unmarshal queries c h).1
  · intro cfg env store channelID models modelMapping hmode herr
    have hu : updateModels cfg env store channelID models modelMapping
        = updateRelational env store channelID (rewriteModels modelMapping models) := by
      simp [updateModels, hmode]
    obtain ⟨herr', _, _, hok⟩ :=
      updateRelational_spec env store channelID (rewriteModels modelMapping models)
    rw [hu] at herr ⊢
    rw [hok (herr'.symm.trans herr)]
    exact applyStatements_no_refresh _ _ _

/-- C9, at a concrete input: the run for channel 7 in which nothing fails
leaves no row named `refresh` in the channel table, which had one. -/
theorem c9_sentinel_refresh_witness :
    (∃ row ∈ exampleStore.committed.channels, row.name = "refresh")
    ∧ ∀ row ∈ (updateModels exampleConfig noFailure exampleStore 7 ["gpt-a"]
        []).store.committed.channels, row.name ≠ "refresh" :=
  ⟨by decide,
    c9_sentinel_refresh.2 exampleConfig noFailure exampleStore 7 ["gpt-a"] []
      (by decide) (by decide)⟩

/-! ## C10: the scheduler on a failed load -/

/-- C10 (the code at the failing input): after a failed load the loop goes on
with the next load at once; with the store failing twice and then answering
with no rows, the loop performs three loads and receives its first tick only
after the third. The failed cycles launch nothing and the loop goes on. -/
theorem c10_failed_load_skips_tick :
    (∀ (cfg : Config) (unmarshal : String → Option GoMap)
        (rest : List (Option (List (Option Row)))),
        mainLoop cfg unmarshal (none :: rest)
          = Event.fetch false :: mainLoop cfg unmarshal rest)
    ∧ mainLoop exampleConfig (fun _ => none) [none, none, some []]
        = [Event.fetch false, Event.fetch false, Event.fetch true, Event.join, Event.tick] := by
  refine ⟨?_, by decide⟩
  intro cfg unmarshal rest
  simp [mainLoop, fetchChannels]

end ChannelMonitor
